import Mathlib

/-!
Verification of the approval-gate and order-queue core of the BotLMKRD bot
(`main.py`).  The Python code is shallowly embedded: the SQLite tables become
lists of records, the JSON blobs stored in TEXT columns become an explicit
JSON document type, handlers become pure functions from a world state to a
world state plus a reply, and the background worker becomes a step function
driven by an outcome oracle for the external ledger write.
-/

namespace BotLMKRD

/-! ## JSON layer

`PyVal` models the Python values that reach `json.dumps` (FSM session data,
order payloads).  `JVal` models JSON documents, i.e. what the TEXT column
stores and what `json.loads` returns.  `json.dumps(..., default=str)` maps a
`PyVal` to a `JVal`: native values map structurally, while a non-native value
such as a `datetime` is rendered through `str()` and becomes a JSON string.
The textual encoding itself is the Python standard library's and is modelled
by its documented semantics (a document is stored and recovered verbatim).
-/

inductive PyVal where
  | pStr (s : String)
  | pInt (n : Int)
  | pBool (b : Bool)
  | pNone
  | pList (xs : List PyVal)
  | pDict (fs : List (String × PyVal))
  | pDatetime (repr : String)
  deriving Repr

inductive JVal where
  | jStr (s : String)
  | jInt (n : Int)
  | jBool (b : Bool)
  | jNull
  | jArr (xs : List JVal)
  | jObj (fs : List (String × JVal))
  deriving Repr

mutual

/-- `json.dumps(v, ensure_ascii=False, default=str)`: structural translation,
with non-JSON-native values (datetimes) coerced through `str()`. -/
def dumps : PyVal → JVal
  | .pStr s => .jStr s
  | .pInt n => .jInt n
  | .pBool b => .jBool b
  | .pNone => .jNull
  | .pList xs => .jArr (dumpsList xs)
  | .pDict fs => .jObj (dumpsFields fs)
  | .pDatetime r => .jStr r

def dumpsList : List PyVal → List JVal
  | [] => []
  | v :: vs => dumps v :: dumpsList vs

def dumpsFields : List (String × PyVal) → List (String × JVal)
  | [] => []
  | (k, v) :: fs => (k, dumps v) :: dumpsFields fs

end

mutual

/-- `json.loads` of a stored document: the canonical Python value of a JSON
document. -/
def loads : JVal → PyVal
  | .jStr s => .pStr s
  | .jInt n => .pInt n
  | .jBool b => .pBool b
  | .jNull => .pNone
  | .jArr xs => .pList (loadsList xs)
  | .jObj fs => .pDict (loadsFields fs)

def loadsList : List JVal → List PyVal
  | [] => []
  | v :: vs => loads v :: loadsList vs

def loadsFields : List (String × JVal) → List (String × PyVal)
  | [] => []
  | (k, v) :: fs => (k, loads v) :: loadsFields fs

end

mutual

/-- A Python value is JSON-native when it is built only from strings,
integers, booleans, `None`, lists and string-keyed dicts — exactly the
values `json.dumps` represents without invoking `default=str`. -/
def jsonNative : PyVal → Bool
  | .pStr _ => true
  | .pInt _ => true
  | .pBool _ => true
  | .pNone => true
  | .pList xs => jsonNativeList xs
  | .pDict fs => jsonNativeFields fs
  | .pDatetime _ => false

def jsonNativeList : List PyVal → Bool
  | [] => true
  | v :: vs => jsonNative v && jsonNativeList vs

def jsonNativeFields : List (String × PyVal) → Bool
  | [] => true
  | (_, v) :: fs => jsonNative v && jsonNativeFields fs

end


/-- Dictionary lookup, `d.get(key)` on a dict value (first binding wins,
as in a Python dict where keys are unique). -/
def dictGet (v : PyVal) (key : String) : Option PyVal :=
  match v with
  | .pDict fs => (fs.find? (fun kv => kv.1 == key)).map (·.2)
  | _ => none

/-! ## Stored TEXT payloads

A TEXT column holding a serialized blob either contains well-formed JSON
text — written by `create_approval_request` / `add_order_to_queue` as
`dumps` output — or arbitrary text that `json.loads` rejects. -/

inductive StoredText where
  | valid (doc : JVal)
  | invalid (raw : String)
  deriving Repr

/-- `json.loads` applied to a stored TEXT value; `none` models
`json.JSONDecodeError`. -/
def tryLoads : StoredText → Option PyVal
  | .valid doc => some (loads doc)
  | .invalid _ => none

/-! ## Approval request store (`approval_requests` table)

One row per request; `request_id` is the TEXT primary key.  Timestamps
(`created_at`, `updated_at`) play no role in the verified claims and are
omitted. -/

inductive RStatus where
  | pending
  | approved
  | rejected
  deriving Repr, DecidableEq

structure ApprovalRequest where
  request_id : String
  user_id : Int
  manager_id : Int
  department : String
  article : String
  shop : String
  product_name : String
  product_supplier : String
  status : RStatus
  user_data : StoredText
  manager_message_id : Option Int
  reject_comment : Option String
  deriving Repr

abbrev ApprovalDB := List ApprovalRequest

/-- `SELECT * FROM approval_requests WHERE request_id = ?` (first match; the
primary key makes it unique in any state the program creates). -/
def lookupRequest (db : ApprovalDB) (rid : String) : Option ApprovalRequest :=
  db.find? (fun r => r.request_id == rid)

/-- The row INSERTed by `create_approval_request` (main.py:1881): `status`
takes the column default `'pending'` and `user_data` stores
`json.dumps(user_data, ensure_ascii=False, default=str)`. -/
def newRequestRow (rid : String) (uid mgr : Int) (dep art shop pname psup : String)
    (user_data : PyVal) : ApprovalRequest :=
  { request_id := rid, user_id := uid, manager_id := mgr,
    department := dep, article := art, shop := shop,
    product_name := pname, product_supplier := psup,
    status := .pending, user_data := .valid (dumps user_data),
    manager_message_id := none, reject_comment := none }

/-- `create_approval_request` (main.py:1881): INSERT a fresh row; a
primary-key collision raises, is caught, and yields `False` with no
change. -/
def create_approval_request (db : ApprovalDB) (rid : String) (uid mgr : Int)
    (dep art shop pname psup : String) (user_data : PyVal) : ApprovalDB × Bool :=
  if (lookupRequest db rid).isSome then (db, false)
  else (db ++ [newRequestRow rid uid mgr dep art shop pname psup user_data], true)

/-- `update_approval_request_status` (main.py:1940): UPDATE sets `status`
always, `manager_message_id` only when passed, `reject_comment` only when
passed; the WHERE clause matches on `request_id` alone — there is no status
guard.  Returns `rowcount > 0`. -/
def update_approval_request_status (db : ApprovalDB) (rid : String)
    (status : RStatus) (mmid : Option Int) (comment : Option String) :
    ApprovalDB × Bool :=
  (db.map (fun r =>
      if r.request_id == rid then
        { r with status := status,
                 manager_message_id := match mmid with
                   | some m => some m
                   | none => r.manager_message_id,
                 reject_comment := match comment with
                   | some c => some c
                   | none => r.reject_comment }
      else r),
   db.any (fun r => r.request_id == rid))

/-- Row view produced by `get_approval_request_by_id` (main.py:1990): the raw
row with `user_data` run through `json.loads`; a decode error is caught and
replaced with the empty dict. -/
structure RequestView where
  request_id : String
  user_id : Int
  manager_id : Int
  department : String
  article : String
  shop : String
  product_name : String
  product_supplier : String
  status : RStatus
  user_data : PyVal
  manager_message_id : Option Int
  reject_comment : Option String
  deriving Repr

def viewOf (r : ApprovalRequest) : RequestView :=
  { request_id := r.request_id, user_id := r.user_id, manager_id := r.manager_id,
    department := r.department, article := r.article, shop := r.shop,
    product_name := r.product_name, product_supplier := r.product_supplier,
    status := r.status, user_data := (tryLoads r.user_data).getD (.pDict []),
    manager_message_id := r.manager_message_id, reject_comment := r.reject_comment }

def get_approval_request_by_id (db : ApprovalDB) (rid : String) : Option RequestView :=
  (lookupRequest db rid).map viewOf

/-- `delete_approval_request` (main.py:2011): DELETE by `request_id`;
returns `rowcount > 0`. -/
def delete_approval_request (db : ApprovalDB) (rid : String) : ApprovalDB × Bool :=
  (db.filter (fun r => !(r.request_id == rid)),
   db.any (fun r => r.request_id == rid))

/-! ## Gate / resume-controller handlers

The world visible to the verified claims: the request table, the approver's
minimal reject state (`ManagerApprovalStates.awaiting_reject_comment` with
`current_reject_request_id`), the requester's FSM data and state tag, and a
log of user-facing notifications.  Edits of the approver's existing message
are display-only and are not recorded.  Telegram sends that can fail are
driven by an explicit outcome argument; SQLite itself is modelled as
reliable. -/

/-- Python `str.strip()`: drop whitespace from both ends (structural, so
concrete instances evaluate). -/
def pyStrip (s : String) : String :=
  ⟨((s.data.dropWhile Char.isWhitespace).reverse.dropWhile Char.isWhitespace).reverse⟩

inductive MsgTag where
  | approvedContinue (rid : String)
  | rejectedWithReason (reason : String)
  | resumePrompt
  deriving Repr, DecidableEq

inductive Msg where
  | toUser (uid : Int) (tag : MsgTag)
  deriving Repr, DecidableEq

inductive UserStep where
  | idle
  | orderReasonInput
  deriving Repr, DecidableEq

structure World where
  requests : ApprovalDB
  rejectPending : Option String
  userData : PyVal
  userStep : UserStep
  sent : List Msg

inductive GateReply where
  | notFound
  | notYours
  | alreadyDecided (st : RStatus)
  | approvedOk
  | approvedNotifyFailed
  | askRejectComment
  | emptyComment
  | stateError
  | rejectDone
  | managerRejected
  | notApprovedYet
  | resumed
  deriving Repr, DecidableEq

inductive MAction where
  | approve
  | startReject
  deriving Repr, DecidableEq

/-- `handle_manager_approval` (main.py:2029): guards (not found / wrong
manager / already decided) then either the approve path — set status
`approved`, notify the requester with a `continue_order` button — or the
start-reject path — remember the `request_id` in the approver's state and
ask for a comment. -/
def handle_manager_approval (w : World) (action : MAction) (rid : String)
    (actor : Int) (notifyOk : Bool) : World × GateReply :=
  match get_approval_request_by_id w.requests rid with
  | none => (w, .notFound)
  | some req =>
    if req.manager_id ≠ actor then (w, .notYours)
    else if req.status ≠ .pending then (w, .alreadyDecided req.status)
    else
      match action with
      | .approve =>
        if notifyOk then
          ({ w with requests := (update_approval_request_status w.requests rid .approved none none).1,
                    sent := w.sent ++ [.toUser req.user_id (.approvedContinue rid)] },
           .approvedOk)
        else
          ({ w with requests := (update_approval_request_status w.requests rid .approved none none).1 },
           .approvedNotifyFailed)
      | .startReject =>
        ({ w with rejectPending := some rid }, .askRejectComment)

/-- `handle_manager_reject_comment` (main.py:2127): an empty stripped
comment re-prompts without touching any state; otherwise the same three
guards run (each clearing the approver's state) and on success the request
becomes `rejected` with the comment, the requester is notified with the
reason, and the approver's state is cleared.  The row is not deleted. -/
def handle_manager_reject_comment (w : World) (actor : Int) (text : String) :
    World × GateReply :=
  if pyStrip text = "" then (w, .emptyComment)
  else
    match w.rejectPending with
    | none => ({ w with rejectPending := none }, .stateError)
    | some rid =>
      match get_approval_request_by_id w.requests rid with
      | none => ({ w with rejectPending := none }, .notFound)
      | some req =>
        if req.manager_id ≠ actor then ({ w with rejectPending := none }, .notYours)
        else if req.status ≠ .pending then
          ({ w with rejectPending := none }, .alreadyDecided req.status)
        else
          ({ w with requests := (update_approval_request_status w.requests rid .rejected none
                      (some (pyStrip text))).1,
                    rejectPending := none,
                    sent := w.sent ++ [.toUser req.user_id (.rejectedWithReason (pyStrip text))] },
           .rejectDone)

/-- `handle_continue_order` (main.py:2227): guards (not found / wrong user /
not approved), then restores the frozen FSM data from the row, deletes the
row, prompts for the order reason and moves the session to
`order_reason_input`. -/
def handle_continue_order (w : World) (rid : String) (actor : Int) :
    World × GateReply :=
  match get_approval_request_by_id w.requests rid with
  | none => (w, .notFound)
  | some req =>
    if req.user_id ≠ actor then (w, .notYours)
    else if req.status ≠ .approved then
      (w, if req.status = .rejected then .managerRejected else .notApprovedYet)
    else
      ({ w with requests := (delete_approval_request w.requests rid).1,
                userData := req.user_data, userStep := .orderReasonInput,
                sent := w.sent ++ [.toUser actor .resumePrompt] },
       .resumed)

/-- The tail of `process_quantity_input` (main.py:3408-3417) after the row
has been created: send the approver notification and record its message id
via `update_approval_request_status(request_id, 'pending', message_id)`; if
the send raises, delete the just-created row and surface an error
(`False`). -/
def gateSendAndRecord (db : ApprovalDB) (rid : String) (sendResult : Option Int) :
    ApprovalDB × Bool :=
  match sendResult with
  | some mid => ((update_approval_request_status db rid .pending (some mid) none).1, true)
  | none => ((delete_approval_request db rid).1, false)

/-- The operations that touch an approval request, as one step relation. -/
inductive GateOp where
  | create (rid : String) (uid mgr : Int) (dep art shop pname psup : String)
      (data : PyVal)
  | recordHandle (rid : String) (mid : Int)
  | decide (action : MAction) (rid : String) (actor : Int) (notifyOk : Bool)
  | rejectComment (actor : Int) (text : String)
  | resume (rid : String) (actor : Int)

def stepOp (w : World) (op : GateOp) : World :=
  match op with
  | .create rid uid mgr dep art shop pn ps data =>
      { w with requests := (create_approval_request w.requests rid uid mgr dep art shop pn ps data).1 }
  | .recordHandle rid mid =>
      { w with requests := (update_approval_request_status w.requests rid .pending (some mid) none).1 }
  | .decide a rid actor ok => (handle_manager_approval w a rid actor ok).1
  | .rejectComment actor text => (handle_manager_reject_comment w actor text).1
  | .resume rid actor => (handle_continue_order w rid actor).1

/-- Status of the request `rid` as the program observes it. -/
def statusOf (db : ApprovalDB) (rid : String) : Option RStatus :=
  (lookupRequest db rid).map (·.status)

/-- The transitions the specification allows for one operation: status
unchanged, a fresh row starting at `pending`, deletion, or
`pending → approved` / `pending → rejected`. -/
def transitionOk : Option RStatus → Option RStatus → Bool
  | some s, some t =>
      s == t || (s == .pending && (t == .approved || t == .rejected))
  | some _, none => true
  | none, some t => t == .pending
  | none, none => true

/-! ## Order queue (`order_queue` table) and background worker -/

inductive QStatus where
  | pending
  | processing
  | completed
  | failed
  deriving Repr, DecidableEq

structure QueueEntry where
  id : Nat
  user_id : Int
  order_data : StoredText
  status : QStatus
  attempt_count : Nat
  last_attempt : Option Nat
  error_message : Option String
  created_at : Nat
  processed_at : Option Nat
  deriving Repr

abbrev QueueDB := List QueueEntry

def MAX_ATTEMPTS : Nat := 5

/-- The SQL eligibility filter of `get_pending_orders` (main.py:2363):
`status = 'pending' OR (status = 'failed' AND attempt_count < 5)`. -/
def eligible (e : QueueEntry) : Bool :=
  e.status == .pending || (e.status == .failed && decide (e.attempt_count < MAX_ATTEMPTS))

/-- `ORDER BY created_at ASC`. -/
def byCreated (a b : QueueEntry) : Prop := a.created_at ≤ b.created_at

instance : DecidableRel byCreated := fun a b => Nat.decLe a.created_at b.created_at

instance : IsTotal QueueEntry byCreated := ⟨fun a b => Nat.le_total a.created_at b.created_at⟩

instance : IsTrans QueueEntry byCreated := ⟨fun _ _ _ => Nat.le_trans⟩

/-- The rows the SELECT of `get_pending_orders` returns: eligible entries
ordered by `created_at`, truncated by LIMIT. -/
def sqlRows (db : QueueDB) (limit : Nat) : List QueueEntry :=
  (List.insertionSort byCreated (db.filter eligible)).take limit

/-- The Python dict built per row in `get_pending_orders` (id, user_id,
parsed order_data, attempt_count). -/
structure ClaimedOrder where
  id : Nat
  user_id : Int
  order_data : PyVal
  attempt_count : Nat
  deriving Repr

/-- One row of the batch; `none` when `json.loads(row['order_data'])`
raises, in which case the row is logged and skipped. -/
def toClaimed (e : QueueEntry) : Option ClaimedOrder :=
  (tryLoads e.order_data).map (fun d =>
    { id := e.id, user_id := e.user_id, order_data := d,
      attempt_count := e.attempt_count })

/-- `get_pending_orders` (main.py:2353): SELECT up to `limit` eligible rows
ordered by `created_at`, then decode each payload, silently dropping rows
whose payload fails to decode. -/
def get_pending_orders (db : QueueDB) (limit : Nat) : List ClaimedOrder :=
  (sqlRows db limit).filterMap toClaimed

/-- The per-row effect of `update_order_status` (main.py:2388): `completed`
sets `processed_at` and `last_attempt`; `failed` stores the error message,
increments `attempt_count` and sets `last_attempt`; any other status just
sets the status and `last_attempt`. -/
def applyStatus (now : Nat) (status : QStatus) (error_message : Option String)
    (e : QueueEntry) : QueueEntry :=
  match status with
  | .completed => { e with status := .completed, processed_at := some now,
                           last_attempt := some now }
  | .failed => { e with status := .failed, error_message := error_message,
                        attempt_count := e.attempt_count + 1,
                        last_attempt := some now }
  | s => { e with status := s, last_attempt := some now }

/-- `update_order_status`: UPDATE by id, returning `rowcount > 0`. -/
def update_order_status (db : QueueDB) (order_id : Nat) (status : QStatus)
    (error_message : Option String) (now : Nat) : QueueDB × Bool :=
  (db.map (fun e => if e.id == order_id then applyStatus now status error_message e else e),
   db.any (fun e => e.id == order_id))

/-- The operator escalation built in `process_order_queue` (main.py:2515):
entry id, user id, and a payload summary (article, shop, error text).  It is
broadcast to every admin; the event itself is one escalation. -/
structure Escalation where
  order_id : Nat
  user_id : Int
  article : Option PyVal
  shop : Option PyVal
  error : String
  deriving Repr

def escalationFor (o : ClaimedOrder) (err : String) : Escalation :=
  { order_id := o.id, user_id := o.user_id,
    article := dictGet o.order_data "article",
    shop := dictGet o.order_data "selected_shop", error := err }

/-- Processing of one claimed order inside the worker loop
(main.py:2465-2525): mark `processing`, attempt the external write
(`outcome` is `none` on success, `some err` when it raises), then mark
`completed`, or mark `failed` and — when this claimed attempt reaches
`max_retries` — emit the operator escalation. -/
def processOne (db : QueueDB) (o : ClaimedOrder) (outcome : Option String)
    (now : Nat) : QueueDB × List Escalation :=
  match outcome with
  | none =>
    ((update_order_status (update_order_status db o.id .processing none now).1
        o.id .completed none now).1, [])
  | some err =>
    if MAX_ATTEMPTS ≤ o.attempt_count + 1 then
      ((update_order_status (update_order_status db o.id .processing none now).1
          o.id .failed (some err) now).1, [escalationFor o err])
    else
      ((update_order_status (update_order_status db o.id .processing none now).1
          o.id .failed (some err) now).1, [])

/-- Sequential processing of a claimed batch; a failure on one entry does
not stop the loop. -/
def processList (db : QueueDB) (os : List ClaimedOrder)
    (outcome : Nat → Option String) (now : Nat) : QueueDB × List Escalation :=
  match os with
  | [] => (db, [])
  | o :: rest =>
    ((processList (processOne db o (outcome o.id) now).1 rest outcome now).1,
     (processOne db o (outcome o.id) now).2 ++
       (processList (processOne db o (outcome o.id) now).1 rest outcome now).2)

/-- One cycle of `process_order_queue` (main.py:2444): claim up to 5 entries
and process them sequentially.  The sleeps are irrelevant to the verified
claims. -/
def workerCycle (db : QueueDB) (outcome : Nat → Option String) (now : Nat) :
    QueueDB × List Escalation :=
  processList db (get_pending_orders db 5) outcome now

/-- A run of successive worker cycles, each with its own oracle for the
external writes. -/
def runCycles (db : QueueDB) (outs : List (Nat → Option String)) (now : Nat) :
    QueueDB × List Escalation :=
  match outs with
  | [] => (db, [])
  | f :: rest =>
    ((runCycles (workerCycle db f now).1 rest now).1,
     (workerCycle db f now).2 ++ (runCycles (workerCycle db f now).1 rest now).2)

def ADMINS : List Int := [122086799, 5183727015]

/-- `add_order_to_queue` (main.py:2333): INSERT the serialized payload with
status `'pending'` (and `attempt_count` default 0); a write failure is
caught and reported as `False` with no row added. -/
def add_order_to_queue (db : QueueDB) (uid : Int) (order_data : PyVal)
    (newId createdAt : Nat) (insertOk : Bool) : QueueDB × Bool :=
  if insertOk then
    (db ++ [{ id := newId, user_id := uid, order_data := .valid (dumps order_data),
              status := .pending, attempt_count := 0, last_attempt := none,
              error_message := none, created_at := createdAt,
              processed_at := none }], true)
  else (db, false)

/-- The operator alert of `final_confirmation` (main.py:3489-3503): one
message per admin naming the user and the order's article and shop. -/
structure Alert where
  admin : Int
  user_id : Int
  article : Option PyVal
  shop : Option PyVal
  deriving Repr

/-- The enqueue tail of `final_confirmation`: enqueue, and on failure alert
every admin about the lost order. -/
def final_confirmation_enqueue (db : QueueDB) (uid : Int) (data : PyVal)
    (newId createdAt : Nat) (insertOk : Bool) : QueueDB × List Alert :=
  if (add_order_to_queue db uid data newId createdAt insertOk).2 then
    ((add_order_to_queue db uid data newId createdAt insertOk).1, [])
  else
    ((add_order_to_queue db uid data newId createdAt insertOk).1,
     ADMINS.map (fun a =>
       { admin := a, user_id := uid, article := dictGet data "article",
         shop := dictGet data "selected_shop" }))

/-- Primary-key discipline: all ids distinct. -/
def uniqueIds (db : QueueDB) : Prop := (db.map (·.id)).Nodup

/-- The row function applied by `update_approval_request_status`. -/
def updRow (rid : String) (st : RStatus) (mmid : Option Int)
    (comment : Option String) (r : ApprovalRequest) : ApprovalRequest :=
  if r.request_id == rid then
    { r with status := st,
             manager_message_id := match mmid with
               | some m => some m
               | none => r.manager_message_id,
             reject_comment := match comment with
               | some c => some c
               | none => r.reject_comment }
  else r

def idsOf (db : QueueDB) : List Nat := db.map (·.id)

/-- The creation timestamp of the stored row an id refers to. -/
def createdOf (db : QueueDB) (i : Nat) : Nat :=
  ((db.find? (fun x => x.id == i)).map (·.created_at)).getD 0

/-! ## Concrete instances -/

/-- A session state as the gate freezes it at the quantity step. -/
def exSnap : PyVal :=
  .pDict [("article", .pStr "41334"), ("selected_shop", .pStr "K608"),
          ("quantity", .pInt 4), ("product_name", .pStr "Atlant"),
          ("department", .pStr "5")]

def exReq : ApprovalRequest :=
  newRequestRow "r1" 10 20 "5" "41334" "K608" "Atlant" "P" exSnap

def exWorld : World :=
  { requests := [exReq], rejectPending := none, userData := .pDict [],
    userStep := .idle, sent := [] }

def exWorldApproved : World :=
  { requests := [{ exReq with status := .approved }], rejectPending := none,
    userData := .pDict [], userStep := .idle, sent := [] }

/-- The world after the gate has created request `r1` and the approver has
already approved it — the state in which the gate's message-handle
recording write can still run. -/
def cexWorld : World :=
  stepOp (stepOp { requests := [], rejectPending := none, userData := .pDict [],
                   userStep := .idle, sent := [] }
           (.create "r1" 10 20 "5" "41334" "K608" "Atlant" "P" (.pDict [])))
    (.decide .approve "r1" 20 true)

def exQdone : QueueEntry :=
  { id := 1, user_id := 10, order_data := .valid (dumps exSnap),
    status := .failed, attempt_count := 5, last_attempt := none,
    error_message := some "boom", created_at := 0, processed_at := none }

def exClaim : ClaimedOrder :=
  { id := 1, user_id := 10, order_data := exSnap, attempt_count := 4 }

def exA : QueueEntry :=
  { id := 1, user_id := 10, order_data := .valid (dumps exSnap),
    status := .pending, attempt_count := 0, last_attempt := none,
    error_message := none, created_at := 0, processed_at := none }

def exB : QueueEntry :=
  { id := 2, user_id := 11, order_data := .valid (dumps exSnap),
    status := .pending, attempt_count := 0, last_attempt := none,
    error_message := none, created_at := 1, processed_at := none }

def exBad : QueueEntry :=
  { id := 2, user_id := 11, order_data := .invalid "not json",
    status := .pending, attempt_count := 0, last_attempt := none,
    error_message := none, created_at := 0, processed_at := none }

/-! ## Round-trip theorems -/

mutual

theorem roundtrip_val : ∀ v : PyVal, jsonNative v = true → loads (dumps v) = v
  | .pStr _, _ => rfl
  | .pInt _, _ => rfl
  | .pBool _, _ => rfl
  | .pNone, _ => rfl
  | .pList xs, h => by
      simp only [jsonNative] at h
      simp only [dumps, loads, roundtrip_list xs h]
  | .pDict fs, h => by
      simp only [jsonNative] at h
      simp only [dumps, loads, roundtrip_fields fs h]
  | .pDatetime _, h => by simp [jsonNative] at h

theorem roundtrip_list : ∀ xs : List PyVal, jsonNativeList xs = true →
    loadsList (dumpsList xs) = xs
  | [], _ => rfl
  | v :: vs, h => by
      simp only [jsonNativeList, Bool.and_eq_true] at h
      simp only [dumpsList, loadsList, roundtrip_val v h.1, roundtrip_list vs h.2]

theorem roundtrip_fields : ∀ fs : List (String × PyVal), jsonNativeFields fs = true →
    loadsFields (dumpsFields fs) = fs
  | [], _ => rfl
  | (k, v) :: fs, h => by
      simp only [jsonNativeFields, Bool.and_eq_true] at h
      simp only [dumpsFields, loadsFields, roundtrip_val v h.1, roundtrip_fields fs h.2]

end

/-! ## Lemmas about the approval store -/

theorem lookup_req_id {db : ApprovalDB} {rid : String} {r : ApprovalRequest}
    (h : lookupRequest db rid = some r) : r.request_id = rid := by
  have := List.find?_some h
  simpa using this


theorem updRow_id (rid : String) (st : RStatus) (m : Option Int)
    (c : Option String) (r : ApprovalRequest) :
    (updRow rid st m c r).request_id = r.request_id := by
  unfold updRow
  by_cases h : r.request_id == rid <;> simp [h]

theorem update_fst (db : ApprovalDB) (rid : String) (st : RStatus)
    (m : Option Int) (c : Option String) :
    (update_approval_request_status db rid st m c).1 = db.map (updRow rid st m c) := rfl

theorem lookup_update (db : ApprovalDB) (rid : String) (st : RStatus)
    (m : Option Int) (c : Option String) (rid' : String) :
    lookupRequest (update_approval_request_status db rid st m c).1 rid' =
      (lookupRequest db rid').map (updRow rid st m c) := by
  rw [update_fst]
  unfold lookupRequest
  rw [List.find?_map]
  have hp : ((fun r : ApprovalRequest => r.request_id == rid') ∘ updRow rid st m c)
      = (fun r : ApprovalRequest => r.request_id == rid') := by
    funext r
    simp [Function.comp, updRow_id]
  rw [hp]

theorem lookup_update_self {db : ApprovalDB} {rid : String} {r : ApprovalRequest}
    (st : RStatus) (m : Option Int) (c : Option String)
    (h : lookupRequest db rid = some r) :
    lookupRequest (update_approval_request_status db rid st m c).1 rid =
      some { r with status := st,
                    manager_message_id := match m with
                      | some x => some x
                      | none => r.manager_message_id,
                    reject_comment := match c with
                      | some x => some x
                      | none => r.reject_comment } := by
  rw [lookup_update, h]
  have hid : r.request_id = rid := lookup_req_id h
  simp [updRow, hid]

theorem statusOf_update_self (db : ApprovalDB) (rid : String) (st : RStatus)
    (m : Option Int) (c : Option String) :
    statusOf (update_approval_request_status db rid st m c).1 rid =
      (statusOf db rid).map (fun _ => st) := by
  unfold statusOf
  rw [lookup_update]
  cases h : lookupRequest db rid with
  | none => rfl
  | some r =>
    have hid : r.request_id = rid := lookup_req_id h
    simp [updRow, hid]

theorem statusOf_update_other (db : ApprovalDB) (rid : String) (st : RStatus)
    (m : Option Int) (c : Option String) (rid' : String) (hne : rid' ≠ rid) :
    statusOf (update_approval_request_status db rid st m c).1 rid' =
      statusOf db rid' := by
  unfold statusOf
  rw [lookup_update]
  cases h : lookupRequest db rid' with
  | none => rfl
  | some r =>
    have hid : r.request_id = rid' := lookup_req_id h
    simp [updRow, hid, hne]

theorem lookup_delete_self (db : ApprovalDB) (rid : String) :
    lookupRequest (delete_approval_request db rid).1 rid = none := by
  unfold delete_approval_request lookupRequest
  rw [List.find?_eq_none]
  intro x hx
  rcases List.mem_filter.mp hx with ⟨_, hpx⟩
  simpa using hpx

theorem lookup_delete_other (db : ApprovalDB) (rid rid' : String)
    (hne : rid' ≠ rid) :
    lookupRequest (delete_approval_request db rid).1 rid' =
      lookupRequest db rid' := by
  show List.find? (fun r => r.request_id == rid')
      (List.filter (fun r => !(r.request_id == rid)) db) =
    List.find? (fun r => r.request_id == rid') db
  rw [List.find?_filter]
  congr 1
  funext a
  by_cases hq : a.request_id = rid'
  · have hr : ¬ a.request_id = rid := fun hc => hne (hq ▸ hc.symm ▸ rfl)
    simp [hq, hr, hne]
  · simp [hq]

theorem lookup_append_single (db : ApprovalDB) (r : ApprovalRequest)
    (rid' : String) :
    lookupRequest (db ++ [r]) rid' =
      (lookupRequest db rid').or (if r.request_id == rid' then some r else none) := by
  unfold lookupRequest
  rw [List.find?_append]
  congr 1
  cases h : (r.request_id == rid') with
  | true => simp [List.find?_cons, h]
  | false => simp [List.find?_cons, h]

theorem transitionOk_refl (x : Option RStatus) : transitionOk x x = true := by
  cases x with
  | none => rfl
  | some s => simp [transitionOk]

/-! ## C1: status transition discipline -/

/-- C1 (amended): for every world and every gate operation, provided a
message-handle recording only runs while its request is still pending (or
absent) — which is the unraced gate flow — the status of every request
transitions only `pending → approved` or `pending → rejected`; fresh rows
start `pending` and rows already decided are never changed by the decision,
reject-comment or resume handlers.  The proviso is necessary: the recording
update `update_approval_request_status(request_id, 'pending', message_id)`
carries no status guard (see the counterexample). -/
theorem approval_status_transitions_guarded (w : World) (op : GateOp)
    (hrec : ∀ rid mid, op = .recordHandle rid mid →
      statusOf w.requests rid = none ∨ statusOf w.requests rid = some .pending) :
    ∀ rid', transitionOk (statusOf w.requests rid')
      (statusOf (stepOp w op).requests rid') = true := by
  intro rid'
  have hview : ∀ rid req, get_approval_request_by_id w.requests rid = some req →
      req.status = .pending →
      ∃ r, lookupRequest w.requests rid = some r ∧ r.status = .pending := by
    intro rid req hg hpend
    unfold get_approval_request_by_id at hg
    cases h : lookupRequest w.requests rid with
    | none => rw [h] at hg; simp at hg
    | some r =>
      rw [h] at hg
      rw [Option.map_some', Option.some_inj] at hg
      refine ⟨r, rfl, ?_⟩
      have hv : (viewOf r).status = req.status := by rw [hg]
      rw [← hpend, ← hv]
      rfl
  cases op with
  | create rid uid mgr dep art shop pn ps data =>
    simp only [stepOp, create_approval_request]
    split
    · exact transitionOk_refl _
    · next hex =>
      have hnone : lookupRequest w.requests rid = none := by
        cases h : lookupRequest w.requests rid with
        | none => rfl
        | some r => rw [h] at hex; simp at hex
      dsimp only
      unfold statusOf
      rw [lookup_append_single]
      by_cases heq : rid = rid'
      · subst heq
        rw [hnone]
        simp [transitionOk, newRequestRow]
      · have hbeq : (rid == rid') = false := by simp [heq]
        simp only [newRequestRow, hbeq, Bool.false_eq_true, if_false]
        cases h : lookupRequest w.requests rid' with
        | none => simp [transitionOk]
        | some r =>
          simp only [Option.or_some]
          exact transitionOk_refl _
  | recordHandle rid mid =>
    simp only [stepOp]
    by_cases heq : rid' = rid
    · subst heq
      rw [statusOf_update_self]
      rcases hrec rid' mid rfl with h | h <;> rw [h] <;> simp [transitionOk]
    · rw [statusOf_update_other _ _ _ _ _ _ heq]
      exact transitionOk_refl _
  | decide a rid actor ok =>
    simp only [stepOp]
    unfold handle_manager_approval
    split
    · exact transitionOk_refl _
    · next req hg =>
      split
      · exact transitionOk_refl _
      · next hmgr =>
        split
        · exact transitionOk_refl _
        · next hst =>
          have hpend : req.status = .pending := not_not.mp hst
          rcases hview rid req hg hpend with ⟨r, hr, hrs⟩
          cases a with
          | approve =>
            split
            · split <;> dsimp only <;>
              · by_cases heq : rid' = rid
                · subst heq
                  rw [statusOf_update_self]
                  unfold statusOf
                  rw [hr]
                  simp [hrs, transitionOk]
                · rw [statusOf_update_other _ _ _ _ _ _ heq]
                  exact transitionOk_refl _
            · next h => exact MAction.noConfusion h
          | startReject =>
            split
            · next h => exact MAction.noConfusion h
            · exact transitionOk_refl _
  | rejectComment actor text =>
    simp only [stepOp]
    unfold handle_manager_reject_comment
    split
    · exact transitionOk_refl _
    · split
      · exact transitionOk_refl _
      · next rid hrp =>
        split
        · exact transitionOk_refl _
        · next req hg =>
          split
          · exact transitionOk_refl _
          · next hmgr =>
            split
            · exact transitionOk_refl _
            · next hst =>
              have hpend : req.status = .pending := not_not.mp hst
              rcases hview rid req hg hpend with ⟨r, hr, hrs⟩
              dsimp only
              by_cases heq : rid' = rid
              · subst heq
                rw [statusOf_update_self]
                unfold statusOf
                rw [hr]
                simp [hrs, transitionOk]
              · rw [statusOf_update_other _ _ _ _ _ _ heq]
                exact transitionOk_refl _
  | resume rid actor =>
    simp only [stepOp]
    unfold handle_continue_order
    split
    · exact transitionOk_refl _
    · next req hg =>
      split
      · exact transitionOk_refl _
      · next huid =>
        split
        · exact transitionOk_refl _
        · next hst =>
          dsimp only
          by_cases heq : rid' = rid
          · subst heq
            unfold statusOf
            rw [lookup_delete_self]
            cases h : lookupRequest w.requests rid' <;> simp [transitionOk]
          · unfold statusOf
            rw [lookup_delete_other _ _ _ heq]
            exact transitionOk_refl _

/-! ## C4: decision guards -/

theorem get_view {db : ApprovalDB} {rid : String} {r : ApprovalRequest}
    (h : lookupRequest db rid = some r) :
    get_approval_request_by_id db rid = some (viewOf r) := by
  unfold get_approval_request_by_id
  rw [h, Option.map_some']

/-- C4: every inbound approver decision — approve or start-reject
(`handle_manager_approval`) and reject-comment
(`handle_manager_reject_comment`) — reports the corresponding condition and
mutates neither the request store nor the requester's session when the
request is absent, the acting identity is not the assigned approver, or the
status is no longer pending; in particular a second approval of an already
approved request is a no-op.  The callback handler returns the world
entirely unchanged; the comment handler only clears the approver's own
awaiting-comment state. -/
theorem decision_guards (w : World) (rid : String) (actor : Int) (a : MAction)
    (ok : Bool) (text : String) :
    (lookupRequest w.requests rid = none →
      handle_manager_approval w a rid actor ok = (w, .notFound)) ∧
    (∀ req, get_approval_request_by_id w.requests rid = some req →
      req.manager_id ≠ actor →
      handle_manager_approval w a rid actor ok = (w, .notYours)) ∧
    (∀ req, get_approval_request_by_id w.requests rid = some req →
      req.manager_id = actor → req.status ≠ .pending →
      handle_manager_approval w a rid actor ok = (w, .alreadyDecided req.status)) ∧
    (w.rejectPending = some rid → pyStrip text ≠ "" →
      (lookupRequest w.requests rid = none →
        (handle_manager_reject_comment w actor text).1.requests = w.requests ∧
        (handle_manager_reject_comment w actor text).1.userData = w.userData ∧
        (handle_manager_reject_comment w actor text).1.userStep = w.userStep ∧
        (handle_manager_reject_comment w actor text).2 = .notFound) ∧
      (∀ req, get_approval_request_by_id w.requests rid = some req →
        req.manager_id ≠ actor →
        (handle_manager_reject_comment w actor text).1.requests = w.requests ∧
        (handle_manager_reject_comment w actor text).1.userData = w.userData ∧
        (handle_manager_reject_comment w actor text).1.userStep = w.userStep ∧
        (handle_manager_reject_comment w actor text).2 = .notYours) ∧
      (∀ req, get_approval_request_by_id w.requests rid = some req →
        req.manager_id = actor → req.status ≠ .pending →
        (handle_manager_reject_comment w actor text).1.requests = w.requests ∧
        (handle_manager_reject_comment w actor text).1.userData = w.userData ∧
        (handle_manager_reject_comment w actor text).1.userStep = w.userStep ∧
        (handle_manager_reject_comment w actor text).2 = .alreadyDecided req.status)) := by
  refine ⟨?_, ?_, ?_, ?_⟩
  · intro hnone
    have hg : get_approval_request_by_id w.requests rid = none := by
      unfold get_approval_request_by_id
      rw [hnone]
      rfl
    unfold handle_manager_approval
    rw [hg]
  · intro req hg hm
    unfold handle_manager_approval
    rw [hg]
    dsimp only
    rw [if_pos hm]
  · intro req hg hm hst
    unfold handle_manager_approval
    rw [hg]
    dsimp only
    rw [if_neg (not_not_intro hm), if_pos hst]
  · intro hrp htext
    refine ⟨?_, ?_, ?_⟩
    · intro hnone
      have hg : get_approval_request_by_id w.requests rid = none := by
        unfold get_approval_request_by_id
        rw [hnone]
        rfl
      unfold handle_manager_reject_comment
      rw [if_neg htext, hrp]
      dsimp only
      rw [hg]
      exact ⟨rfl, rfl, rfl, rfl⟩
    · intro req hg hm
      unfold handle_manager_reject_comment
      rw [if_neg htext, hrp]
      dsimp only
      rw [hg]
      dsimp only
      rw [if_pos hm]
      exact ⟨rfl, rfl, rfl, rfl⟩
    · intro req hg hm hst
      unfold handle_manager_reject_comment
      rw [if_neg htext, hrp]
      dsimp only
      rw [hg]
      dsimp only
      rw [if_neg (not_not_intro hm), if_pos hst]
      exact ⟨rfl, rfl, rfl, rfl⟩

/-! ## C2: request-row lifecycle -/

/-- C2: for a pending request, the completed approve path — status set to
`approved`, requester notified with the resumable `continue_order` action,
session resumed via `handle_continue_order` — ends with the Request row
deleted; the completed reject path ends with the row retained in terminal
`rejected` state (with the comment stored), never deleted. -/
theorem approve_deletes_reject_retains (w : World) (r : ApprovalRequest)
    (text : String)
    (hr : lookupRequest w.requests r.request_id = some r)
    (hp : r.status = .pending)
    (ht : pyStrip text ≠ "") :
    (handle_manager_approval w .approve r.request_id r.manager_id true).2 = .approvedOk ∧
    Msg.toUser r.user_id (.approvedContinue r.request_id) ∈
      (handle_manager_approval w .approve r.request_id r.manager_id true).1.sent ∧
    statusOf (handle_manager_approval w .approve r.request_id r.manager_id true).1.requests
      r.request_id = some .approved ∧
    (handle_continue_order (handle_manager_approval w .approve r.request_id r.manager_id true).1
      r.request_id r.user_id).2 = .resumed ∧
    lookupRequest (handle_continue_order
      (handle_manager_approval w .approve r.request_id r.manager_id true).1
      r.request_id r.user_id).1.requests r.request_id = none ∧
    (handle_manager_reject_comment { w with rejectPending := some r.request_id }
      r.manager_id text).2 = .rejectDone ∧
    lookupRequest (handle_manager_reject_comment { w with rejectPending := some r.request_id }
      r.manager_id text).1.requests r.request_id =
      some { r with status := .rejected, reject_comment := some (pyStrip text) } := by
  have hga : handle_manager_approval w .approve r.request_id r.manager_id true =
      ({ w with requests := (update_approval_request_status w.requests r.request_id
                  .approved none none).1,
                sent := w.sent ++ [.toUser r.user_id (.approvedContinue r.request_id)] },
       .approvedOk) := by
    unfold handle_manager_approval
    rw [get_view hr]
    dsimp only [viewOf]
    rw [if_neg (not_not_intro rfl), if_neg (not_not_intro hp)]
    rfl
  have hlook1 : lookupRequest (update_approval_request_status w.requests r.request_id
      .approved none none).1 r.request_id = some { r with status := .approved } :=
    lookup_update_self .approved none none hr
  have hgc : handle_continue_order
      ({ w with requests := (update_approval_request_status w.requests r.request_id
                  .approved none none).1,
                sent := w.sent ++ [.toUser r.user_id (.approvedContinue r.request_id)] } : World)
      r.request_id r.user_id =
      ({ w with requests := (delete_approval_request (update_approval_request_status w.requests
                  r.request_id .approved none none).1 r.request_id).1,
                userData := (tryLoads r.user_data).getD (.pDict []),
                userStep := .orderReasonInput,
                sent := (w.sent ++ [.toUser r.user_id (.approvedContinue r.request_id)]) ++
                  [.toUser r.user_id .resumePrompt] },
       .resumed) := by
    unfold handle_continue_order
    rw [get_view hlook1]
    dsimp only [viewOf]
    rw [if_neg (not_not_intro rfl), if_neg (not_not_intro rfl)]
  have hrej : handle_manager_reject_comment
      ({ w with rejectPending := some r.request_id } : World) r.manager_id text =
      ({ w with requests := (update_approval_request_status w.requests r.request_id
                  .rejected none (some (pyStrip text))).1,
                rejectPending := none,
                sent := w.sent ++ [.toUser r.user_id (.rejectedWithReason (pyStrip text))] },
       .rejectDone) := by
    unfold handle_manager_reject_comment
    rw [if_neg ht]
    dsimp only
    rw [get_view hr]
    dsimp only [viewOf]
    rw [if_neg (not_not_intro rfl), if_neg (not_not_intro hp)]
  refine ⟨by rw [hga], ?_, ?_, by rw [hga, hgc], ?_, by rw [hrej], ?_⟩
  · rw [hga]
    simp
  · rw [hga]
    dsimp only
    rw [statusOf_update_self]
    unfold statusOf
    rw [hr]
    rfl
  · rw [hga, hgc]
    dsimp only
    exact lookup_delete_self _ _
  · rw [hrej]
    dsimp only
    exact lookup_update_self .rejected none (some (pyStrip text)) hr

/-! ## C8: gate rollback, and C3: snapshot round trip -/

theorem create_fresh (db : ApprovalDB) (rid : String) (uid mgr : Int)
    (dep art shop pn ps : String) (data : PyVal)
    (hfresh : lookupRequest db rid = none) :
    create_approval_request db rid uid mgr dep art shop pn ps data =
      (db ++ [newRequestRow rid uid mgr dep art shop pn ps data], true) := by
  unfold create_approval_request
  rw [hfresh]
  rfl

theorem lookup_create_fresh (db : ApprovalDB) (rid : String) (uid mgr : Int)
    (dep art shop pn ps : String) (data : PyVal)
    (hfresh : lookupRequest db rid = none) :
    lookupRequest (create_approval_request db rid uid mgr dep art shop pn ps data).1 rid =
      some (newRequestRow rid uid mgr dep art shop pn ps data) := by
  rw [create_fresh db rid uid mgr dep art shop pn ps data hfresh]
  dsimp only
  rw [lookup_append_single, hfresh]
  simp [newRequestRow]

/-- C8: when the gate has persisted a new pending request but the approver
notification fails to send, the gate deletes the just-created row and
surfaces an error to the requester — no pending request row remains. -/
theorem notify_failure_rolls_back (db : ApprovalDB) (rid : String) (uid mgr : Int)
    (dep art shop pn ps : String) (data : PyVal)
    (hfresh : lookupRequest db rid = none) :
    (create_approval_request db rid uid mgr dep art shop pn ps data).2 = true ∧
    statusOf (create_approval_request db rid uid mgr dep art shop pn ps data).1 rid =
      some .pending ∧
    (gateSendAndRecord (create_approval_request db rid uid mgr dep art shop pn ps data).1
      rid none).2 = false ∧
    lookupRequest (gateSendAndRecord
      (create_approval_request db rid uid mgr dep art shop pn ps data).1 rid none).1
      rid = none := by
  refine ⟨?_, ?_, rfl, ?_⟩
  · rw [create_fresh db rid uid mgr dep art shop pn ps data hfresh]
  · unfold statusOf
    rw [lookup_create_fresh db rid uid mgr dep art shop pn ps data hfresh]
    rfl
  · exact lookup_delete_self _ _

/-- C3: the gate freezes the session state with `json.dumps` when creating
the request, and the resume path reads it back with `json.loads`; for every
JSON-native session state — strings, integers, booleans, `None`, lists,
string-keyed dicts, which is everything the order conversation ever stores —
the restored state equals the frozen one, losing no fields and changing no
values. -/
theorem snapshot_round_trip (db : ApprovalDB) (rid : String) (uid mgr : Int)
    (dep art shop pn ps : String) (data : PyVal)
    (hnative : jsonNative data = true)
    (hfresh : lookupRequest db rid = none) :
    (get_approval_request_by_id
      (create_approval_request db rid uid mgr dep art shop pn ps data).1 rid).map
      (·.user_data) = some data := by
  unfold get_approval_request_by_id
  rw [lookup_create_fresh db rid uid mgr dep art shop pn ps data hfresh,
    Option.map_some', Option.map_some']
  dsimp only [viewOf, newRequestRow, tryLoads]
  rw [Option.getD_some, roundtrip_val data hnative]

/-! ## Lemmas about the queue -/


theorem mem_sqlRows {db : QueueDB} {limit : Nat} {x : QueueEntry}
    (h : x ∈ sqlRows db limit) : x ∈ db ∧ eligible x = true := by
  unfold sqlRows at h
  have h1 : x ∈ List.insertionSort byCreated (db.filter eligible) :=
    (List.take_sublist _ _).mem h
  have h2 : x ∈ db.filter eligible :=
    (List.perm_insertionSort byCreated (db.filter eligible)).mem_iff.mp h1
  exact ⟨(List.mem_filter.mp h2).1, (List.mem_filter.mp h2).2⟩

theorem pairwise_sqlRows (db : QueueDB) (limit : Nat) :
    List.Pairwise byCreated (sqlRows db limit) :=
  List.Pairwise.sublist (List.take_sublist _ _)
    (List.sorted_insertionSort byCreated (db.filter eligible))

theorem length_sqlRows (db : QueueDB) (limit : Nat) :
    (sqlRows db limit).length ≤ limit := by
  unfold sqlRows
  rw [List.length_take]
  exact min_le_left _ _

theorem toClaimed_some {e : QueueEntry} {o : ClaimedOrder}
    (h : toClaimed e = some o) :
    o.id = e.id ∧ o.user_id = e.user_id ∧ o.attempt_count = e.attempt_count ∧
      tryLoads e.order_data = some o.order_data := by
  unfold toClaimed at h
  cases hd : tryLoads e.order_data with
  | none => rw [hd] at h; simp at h
  | some d =>
    rw [hd, Option.map_some', Option.some_inj] at h
    rw [← h]
    exact ⟨rfl, rfl, rfl, rfl⟩

theorem mem_claimed {db : QueueDB} {limit : Nat} {o : ClaimedOrder}
    (h : o ∈ get_pending_orders db limit) :
    ∃ e, e ∈ db ∧ eligible e = true ∧ toClaimed e = some o := by
  unfold get_pending_orders at h
  rcases List.mem_filterMap.mp h with ⟨e, he, hfe⟩
  rcases mem_sqlRows he with ⟨hdb, hel⟩
  exact ⟨e, hdb, hel, hfe⟩

theorem entry_eq_of_id {db : QueueDB} {a b : QueueEntry} (hu : uniqueIds db)
    (ha : a ∈ db) (hb : b ∈ db) (hid : a.id = b.id) : a = b :=
  List.inj_on_of_nodup_map hu ha hb hid

theorem find?_by_id : ∀ {db : QueueDB} {e : QueueEntry}, uniqueIds db →
    e ∈ db → db.find? (fun x => x.id == e.id) = some e := by
  intro db
  induction db with
  | nil => intro e _ he; cases he
  | cons h t ih =>
    intro e hu he
    rw [List.find?_cons]
    cases hb : (h.id == e.id) with
    | true =>
      have hh : h = e :=
        entry_eq_of_id hu (List.mem_cons_self h t) he (by simpa using hb)
      rw [hh]
    | false =>
      have hne : h ≠ e := fun hc => by rw [hc] at hb; simp at hb
      have het : e ∈ t := by
        cases List.mem_cons.mp he with
        | inl h1 => exact absurd h1.symm hne
        | inr h2 => exact h2
      have hut : uniqueIds t := by
        unfold uniqueIds at hu ⊢
        rw [List.map_cons] at hu
        exact (List.nodup_cons.mp hu).2
      exact ih hut het

/-- Not claimed: an entry that is ineligible, or whose payload does not
decode, never appears in a claimed batch (by id). -/
theorem claimed_id_ne {db : QueueDB} {limit : Nat} {e : QueueEntry}
    (hu : uniqueIds db) (he : e ∈ db)
    (hbad : eligible e = false ∨ tryLoads e.order_data = none) :
    ∀ o ∈ get_pending_orders db limit, o.id ≠ e.id := by
  intro o ho hoid
  rcases mem_claimed ho with ⟨en, hen, hel, hfe⟩
  rcases toClaimed_some hfe with ⟨hid, _, _, hload⟩
  have : en = e := entry_eq_of_id hu hen he (by rw [← hid, hoid])
  subst this
  cases hbad with
  | inl h => rw [hel] at h; cases h
  | inr h => rw [hload] at h; cases h

theorem applyStatus_id (now : Nat) (st : QStatus) (err : Option String)
    (e : QueueEntry) : (applyStatus now st err e).id = e.id := by
  cases st <;> rfl

theorem idsOf_update (db : QueueDB) (i : Nat) (st : QStatus)
    (err : Option String) (now : Nat) :
    idsOf (update_order_status db i st err now).1 = idsOf db := by
  unfold idsOf update_order_status
  dsimp only
  rw [List.map_map]
  apply List.map_congr_left
  intro x _
  dsimp only [Function.comp]
  by_cases h : (x.id == i) = true
  · rw [if_pos h, applyStatus_id]
  · rw [if_neg h]

theorem mem_update_other {db : QueueDB} {i : Nat} {st : QStatus}
    {err : Option String} {now : Nat} {e : QueueEntry}
    (he : e ∈ db) (hne : e.id ≠ i) :
    e ∈ (update_order_status db i st err now).1 := by
  unfold update_order_status
  dsimp only
  have hfix : (fun x => if x.id == i then applyStatus now st err x else x) e = e := by
    dsimp only
    rw [if_neg (by simpa using hne)]
  rw [← hfix]
  exact List.mem_map_of_mem _ he

theorem processOne_fst (db : QueueDB) (o : ClaimedOrder) (out : Option String)
    (now : Nat) : (processOne db o out now).1 =
    match out with
    | none => (update_order_status (update_order_status db o.id .processing none now).1
        o.id .completed none now).1
    | some err => (update_order_status (update_order_status db o.id .processing none now).1
        o.id .failed (some err) now).1 := by
  unfold processOne
  cases out with
  | none => rfl
  | some err =>
    dsimp only
    by_cases hc : MAX_ATTEMPTS ≤ o.attempt_count + 1
    · rw [if_pos hc]
    · rw [if_neg hc]

theorem processOne_other {db : QueueDB} {o : ClaimedOrder} {out : Option String}
    {now : Nat} {e : QueueEntry} (he : e ∈ db) (hne : o.id ≠ e.id) :
    e ∈ (processOne db o out now).1 := by
  have h1 : e ∈ (update_order_status db o.id .processing none now).1 :=
    mem_update_other he (Ne.symm hne)
  rw [processOne_fst]
  cases out with
  | none => exact mem_update_other h1 (Ne.symm hne)
  | some err => exact mem_update_other h1 (Ne.symm hne)

theorem idsOf_processOne (db : QueueDB) (o : ClaimedOrder) (out : Option String)
    (now : Nat) : idsOf (processOne db o out now).1 = idsOf db := by
  rw [processOne_fst]
  cases out with
  | none => rw [idsOf_update, idsOf_update]
  | some err => rw [idsOf_update, idsOf_update]

theorem escs_processOne (db : QueueDB) (o : ClaimedOrder) (out : Option String)
    (now : Nat) : ∀ esc ∈ (processOne db o out now).2, esc.order_id = o.id := by
  unfold processOne
  cases out with
  | none => intro esc h; cases h
  | some err =>
    dsimp only
    by_cases hc : MAX_ATTEMPTS ≤ o.attempt_count + 1
    · rw [if_pos hc]
      intro esc h
      rw [List.mem_singleton.mp h]
      rfl
    · rw [if_neg hc]
      intro esc h
      cases h

theorem processList_preserve : ∀ (os : List ClaimedOrder) (db : QueueDB)
    (f : Nat → Option String) (now : Nat) (e : QueueEntry),
    (∀ o ∈ os, o.id ≠ e.id) → e ∈ db →
    e ∈ (processList db os f now).1 ∧
    idsOf (processList db os f now).1 = idsOf db ∧
    ∀ esc ∈ (processList db os f now).2, esc.order_id ≠ e.id := by
  intro os
  induction os with
  | nil =>
    intro db f now e _ he
    exact ⟨he, rfl, fun esc h => absurd h (List.not_mem_nil esc)⟩
  | cons o rest ih =>
    intro db f now e h he
    have ho : o.id ≠ e.id := h o (List.mem_cons_self o rest)
    have hrest : ∀ x ∈ rest, x.id ≠ e.id := fun x hx => h x (List.mem_cons_of_mem o hx)
    have h1 : e ∈ (processOne db o (f o.id) now).1 := processOne_other he ho
    rcases ih (processOne db o (f o.id) now).1 f now e hrest h1 with ⟨hm, hids, hesc⟩
    refine ⟨hm, ?_, ?_⟩
    · show idsOf (processList (processOne db o (f o.id) now).1 rest f now).1 = idsOf db
      rw [hids, idsOf_processOne]
    · intro esc hesc2
      rcases List.mem_append.mp hesc2 with h2 | h2
      · rw [escs_processOne db o (f o.id) now esc h2]
        exact ho
      · exact hesc esc h2

/-- An entry that is ineligible or has an undecodable payload is frozen: any
number of worker cycles leaves it in the store untouched and never emits an
escalation carrying its id. -/
theorem runCycles_frozen : ∀ (outs : List (Nat → Option String)) (db : QueueDB)
    (now : Nat) (e : QueueEntry),
    uniqueIds db → e ∈ db →
    (eligible e = false ∨ tryLoads e.order_data = none) →
    e ∈ (runCycles db outs now).1 ∧
    ∀ esc ∈ (runCycles db outs now).2, esc.order_id ≠ e.id := by
  intro outs
  induction outs with
  | nil =>
    intro db now e _ he _
    exact ⟨he, fun esc h => absurd h (List.not_mem_nil esc)⟩
  | cons f rest ih =>
    intro db now e hu he hbad
    have hne : ∀ o ∈ get_pending_orders db 5, o.id ≠ e.id := claimed_id_ne hu he hbad
    rcases processList_preserve (get_pending_orders db 5) db f now e hne he with
      ⟨hm, hids, hesc⟩
    have hu2 : uniqueIds (workerCycle db f now).1 := by
      unfold uniqueIds
      have h2 : idsOf (workerCycle db f now).1 = idsOf db := hids
      unfold idsOf at h2
      rw [h2]
      exact hu
    rcases ih (workerCycle db f now).1 now e hu2 hm hbad with ⟨hm2, hesc2⟩
    refine ⟨hm2, ?_⟩
    intro esc h
    rcases List.mem_append.mp h with h1 | h1
    · exact hesc esc h1
    · exact hesc2 esc h1

theorem eligible_false_of_terminal {e : QueueEntry} (hf : e.status = .failed)
    (hc : MAX_ATTEMPTS ≤ e.attempt_count) : eligible e = false := by
  have hc5 : 5 ≤ e.attempt_count := hc
  unfold eligible
  rw [hf]
  have hd : decide (e.attempt_count < MAX_ATTEMPTS) = false :=
    decide_eq_false (fun hlt => by
      have h5 : e.attempt_count < 5 := hlt
      omega)
  rw [hd]
  rfl

theorem find?_update_self {db : QueueDB} {e : QueueEntry} (hu : uniqueIds db)
    (he : e ∈ db) (st : QStatus) (err : Option String) (now : Nat) :
    (update_order_status db e.id st err now).1.find? (fun x => x.id == e.id) =
      some (applyStatus now st err e) := by
  unfold update_order_status
  have hp : ((fun x : QueueEntry => x.id == e.id) ∘
      (fun x => if x.id == e.id then applyStatus now st err x else x)) =
      (fun x : QueueEntry => x.id == e.id) := by
    funext x
    dsimp only [Function.comp]
    by_cases h : (x.id == e.id) = true
    · rw [if_pos h, applyStatus_id]
    · rw [if_neg h]
  rw [List.find?_map, hp, find?_by_id hu he, Option.map_some']
  rw [if_pos (by simp)]

/-! ## C7: update_status frame conditions -/

/-- C7: `update_order_status` on `completed` sets `processed_at` and leaves
`attempt_count` and `error_message` (and the payload and `created_at`)
unchanged; on `failed` it increments `attempt_count` by exactly one and
stores the error message; on `processing` or `pending` it changes only the
status and the last-attempt timestamp.  Rows with a different id are
untouched, and `attempt_count` never decreases. -/
theorem update_status_frame (db : QueueDB) (err : Option String)
    (now : Nat) (e : QueueEntry) :
    ((applyStatus now .completed err e).attempt_count = e.attempt_count ∧
     (applyStatus now .completed err e).error_message = e.error_message ∧
     (applyStatus now .completed err e).order_data = e.order_data ∧
     (applyStatus now .completed err e).created_at = e.created_at ∧
     (applyStatus now .completed err e).user_id = e.user_id ∧
     (applyStatus now .completed err e).processed_at = some now ∧
     (applyStatus now .completed err e).status = .completed) ∧
    ((applyStatus now .failed err e).attempt_count = e.attempt_count + 1 ∧
     (applyStatus now .failed err e).error_message = err ∧
     (applyStatus now .failed err e).order_data = e.order_data ∧
     (applyStatus now .failed err e).created_at = e.created_at ∧
     (applyStatus now .failed err e).user_id = e.user_id ∧
     (applyStatus now .failed err e).processed_at = e.processed_at ∧
     (applyStatus now .failed err e).status = .failed) ∧
    (∀ st, st = .processing ∨ st = .pending →
      (applyStatus now st err e).attempt_count = e.attempt_count ∧
      (applyStatus now st err e).error_message = e.error_message ∧
      (applyStatus now st err e).order_data = e.order_data ∧
      (applyStatus now st err e).created_at = e.created_at ∧
      (applyStatus now st err e).user_id = e.user_id ∧
      (applyStatus now st err e).processed_at = e.processed_at ∧
      (applyStatus now st err e).status = st ∧
      (applyStatus now st err e).last_attempt = some now) ∧
    (∀ st, e.attempt_count ≤ (applyStatus now st err e).attempt_count) ∧
    (∀ x ∈ db, ∀ i, x.id ≠ i → ∀ st, x ∈ (update_order_status db i st err now).1) ∧
    (uniqueIds db → e ∈ db → ∀ st,
      (update_order_status db e.id st err now).1.find? (fun x => x.id == e.id) =
        some (applyStatus now st err e)) := by
  refine ⟨⟨rfl, rfl, rfl, rfl, rfl, rfl, rfl⟩,
          ⟨rfl, rfl, rfl, rfl, rfl, rfl, rfl⟩, ?_, ?_, ?_, ?_⟩
  · intro st hst
    rcases hst with h | h <;> subst h <;>
      exact ⟨rfl, rfl, rfl, rfl, rfl, rfl, rfl, rfl⟩
  · intro st
    cases st <;> dsimp only [applyStatus] <;> omega
  · intro x hx i hne st
    exact mem_update_other hx hne
  · intro hu he st
    exact find?_update_self hu he st err now

/-! ## C9: enqueue never silently drops -/

/-- C9: `add_order_to_queue` either durably appends a pending entry and
reports success, or reports failure with the store unchanged; on failure
`final_confirmation` emits a non-empty batch of operator alerts, each naming
the user and the lost order's article and shop. -/
theorem enqueue_never_silent (db : QueueDB) (uid : Int) (data : PyVal)
    (newId createdAt : Nat) :
    add_order_to_queue db uid data newId createdAt true =
      (db ++ [{ id := newId, user_id := uid, order_data := .valid (dumps data),
                status := .pending, attempt_count := 0, last_attempt := none,
                error_message := none, created_at := createdAt,
                processed_at := none }], true) ∧
    add_order_to_queue db uid data newId createdAt false = (db, false) ∧
    (final_confirmation_enqueue db uid data newId createdAt true).2 = [] ∧
    (final_confirmation_enqueue db uid data newId createdAt false).2 ≠ [] ∧
    ∀ al ∈ (final_confirmation_enqueue db uid data newId createdAt false).2,
      al.user_id = uid ∧ al.article = dictGet data "article" ∧
      al.shop = dictGet data "selected_shop" := by
  have hfail : (final_confirmation_enqueue db uid data newId createdAt false).2 =
      ADMINS.map (fun a =>
        { admin := a, user_id := uid, article := dictGet data "article",
          shop := dictGet data "selected_shop" }) := rfl
  refine ⟨rfl, rfl, rfl, ?_, ?_⟩
  · rw [hfail]
    simp [ADMINS]
  · intro al hal
    rw [hfail] at hal
    rcases List.mem_map.mp hal with ⟨a, _, rfl⟩
    exact ⟨rfl, rfl, rfl⟩

/-! ## C5: retry exhaustion -/

/-- C5: once a failed delivery attempt brings `attempt_count` to
`max_attempts` (5) the entry is terminally failed — it is never claimed
again and any number of further worker cycles leaves it untouched with no
escalation carrying its id (no 6th attempt) — and the exhausting attempt
itself emits exactly one operator escalation, carrying the entry id, user
id and payload summary (`escalationFor`), while attempts below the cap emit
none. -/
theorem retry_exhaustion (db : QueueDB) (e : QueueEntry) (o : ClaimedOrder)
    (err : String) (now : Nat) (limit : Nat) (outs : List (Nat → Option String)) :
    (uniqueIds db → e ∈ db → e.status = .failed → MAX_ATTEMPTS ≤ e.attempt_count →
      (∀ o2 ∈ get_pending_orders db limit, o2.id ≠ e.id) ∧
      e ∈ (runCycles db outs now).1 ∧
      ∀ esc ∈ (runCycles db outs now).2, esc.order_id ≠ e.id) ∧
    (MAX_ATTEMPTS ≤ o.attempt_count + 1 →
      (processOne db o (some err) now).2 = [escalationFor o err]) ∧
    (o.attempt_count + 1 < MAX_ATTEMPTS →
      (processOne db o (some err) now).2 = []) ∧
    (processOne db o none now).2 = [] ∧
    (uniqueIds db → e ∈ db → o.id = e.id →
      (processOne db o (some err) now).1.find? (fun x => x.id == e.id) =
        some { e with status := .failed, error_message := some err,
                      attempt_count := e.attempt_count + 1,
                      last_attempt := some now }) := by
  refine ⟨?_, ?_, ?_, rfl, ?_⟩
  · intro hu he hf hc
    have hbad : eligible e = false ∨ tryLoads e.order_data = none :=
      Or.inl (eligible_false_of_terminal hf hc)
    rcases runCycles_frozen outs db now e hu he hbad with ⟨hm, hesc⟩
    exact ⟨claimed_id_ne hu he hbad, hm, hesc⟩
  · intro hc
    unfold processOne
    dsimp only
    rw [if_pos hc]
  · intro hlt
    unfold processOne
    dsimp only
    rw [if_neg (Nat.not_le.mpr hlt)]
  · intro hu he hid
    rw [processOne_fst]
    dsimp only
    rw [hid]
    have h1 := find?_update_self hu he .processing none now
    have he1 : applyStatus now .processing none e ∈
        (update_order_status db e.id .processing none now).1 :=
      List.mem_of_find?_eq_some h1
    have hu1 : uniqueIds (update_order_status db e.id .processing none now).1 := by
      unfold uniqueIds
      have h2 := idsOf_update db e.id .processing none now
      unfold idsOf at h2
      rw [h2]
      exact hu
    have h3 := find?_update_self hu1 he1 .failed (some err) now
    rw [applyStatus_id] at h3
    exact h3

/-! ## C10: malformed payloads are silently starved -/

theorem length_filterMap_add {α β : Type} (f : α → Option β) (l : List α) :
    (l.filterMap f).length + (l.filter (fun a => (f a).isNone)).length =
      l.length := by
  induction l with
  | nil => rfl
  | cons a t ih =>
    cases hf : f a with
    | none =>
      have hn : ((f a).isNone) = true := by rw [hf]; rfl
      rw [List.filterMap_cons, hf, List.filter_cons, if_pos hn]
      simp only [List.length_cons]
      omega
    | some b =>
      have hn : ((f a).isNone) = false := by rw [hf]; rfl
      rw [List.filterMap_cons, hf, List.filter_cons, hn]
      simp only [List.length_cons, Bool.false_eq_true, if_false]
      omega

/-- C10: a pending entry whose stored payload is not valid JSON still
satisfies the SQL eligibility filter and consumes one of the LIMIT slots,
but the decode step drops it from the returned batch, leaving its row
unchanged; across any number of worker cycles it stays pending forever — it
is never processed, never completed or failed, and never escalated. -/
theorem malformed_payload_starved (db : QueueDB) (e : QueueEntry) (raw : String)
    (limit : Nat) (outs : List (Nat → Option String)) (now : Nat)
    (he : e ∈ db) (hp : e.status = .pending) (hraw : e.order_data = .invalid raw)
    (hu : uniqueIds db) :
    eligible e = true ∧
    toClaimed e = none ∧
    (∀ o ∈ get_pending_orders db limit, o.id ≠ e.id) ∧
    (get_pending_orders db limit).length +
      ((sqlRows db limit).filter (fun x => (toClaimed x).isNone)).length =
      (sqlRows db limit).length ∧
    (sqlRows db limit).length ≤ limit ∧
    e ∈ (runCycles db outs now).1 ∧
    (∀ esc ∈ (runCycles db outs now).2, esc.order_id ≠ e.id) := by
  have hload : tryLoads e.order_data = none := by rw [hraw]; rfl
  have hbad : eligible e = false ∨ tryLoads e.order_data = none := Or.inr hload
  rcases runCycles_frozen outs db now e hu he hbad with ⟨hm, hesc⟩
  refine ⟨?_, ?_, claimed_id_ne hu he hbad, ?_, length_sqlRows db limit, hm, hesc⟩
  · unfold eligible
    rw [hp]
    rfl
  · unfold toClaimed
    rw [hload]
    rfl
  · exact length_filterMap_add toClaimed (sqlRows db limit)

/-! ## C6: claim_batch correctness -/


theorem pairwise_filterMap_of {α β : Type} {P : α → α → Prop} {Q : β → β → Prop}
    (f : α → Option β) : ∀ {l : List α}, List.Pairwise P l →
    (∀ a b x y, P a b → f a = some x → f b = some y → Q x y) →
    List.Pairwise Q (l.filterMap f) := by
  intro l
  induction l with
  | nil => intro _ _; exact List.Pairwise.nil
  | cons a t ih =>
    intro hl h
    rcases List.pairwise_cons.mp hl with ⟨hat, ht⟩
    cases hf : f a with
    | none =>
      rw [List.filterMap_cons, hf]
      exact ih ht h
    | some b =>
      rw [List.filterMap_cons, hf]
      refine List.Pairwise.cons ?_ (ih ht h)
      intro y hy
      rcases List.mem_filterMap.mp hy with ⟨c, hc, hfc⟩
      exact h a c b y (hat c hc) hf hfc

theorem createdOf_eq {db : QueueDB} {x : QueueEntry} (hu : uniqueIds db)
    (hx : x ∈ db) : createdOf db x.id = x.created_at := by
  unfold createdOf
  rw [find?_by_id hu hx, Option.map_some', Option.getD_some]

theorem pairwise_claimed (db : QueueDB) (limit : Nat) (hu : uniqueIds db) :
    List.Pairwise (fun x y : ClaimedOrder => createdOf db x.id ≤ createdOf db y.id)
      (get_pending_orders db limit) := by
  have hrows : List.Pairwise
      (fun a b : QueueEntry => a ∈ db ∧ b ∈ db ∧ byCreated a b)
      (sqlRows db limit) :=
    List.Pairwise.imp_of_mem
      (fun ha hb hr => ⟨(mem_sqlRows ha).1, (mem_sqlRows hb).1, hr⟩)
      (pairwise_sqlRows db limit)
  apply pairwise_filterMap_of toClaimed hrows
  intro a b x y hP hfa hfb
  rcases hP with ⟨hadb, hbdb, hcr⟩
  rcases toClaimed_some hfa with ⟨hxa, _, _, _⟩
  rcases toClaimed_some hfb with ⟨hyb, _, _, _⟩
  rw [hxa, hyb, createdOf_eq hu hadb, createdOf_eq hu hbdb]
  exact hcr

/-- C6: a claimed batch has at most `limit` rows; every returned item comes
from a stored row passing the SQL eligibility filter (pending, or failed
with `attempt_count < max_attempts`) with the same id, user, attempt count
and decoded payload; and the batch is ordered by `created_at` ascending —
two pending rows both present in one batch appear in creation order. -/
theorem claim_batch_spec (db : QueueDB) (limit : Nat) (A B : QueueEntry) :
    (get_pending_orders db limit).length ≤ limit ∧
    (∀ o ∈ get_pending_orders db limit, ∃ en, en ∈ db ∧ eligible en = true ∧
      en.id = o.id ∧ en.user_id = o.user_id ∧ en.attempt_count = o.attempt_count ∧
      tryLoads en.order_data = some o.order_data) ∧
    (uniqueIds db → A ∈ db → B ∈ db → A.status = .pending → B.status = .pending →
      A.created_at < B.created_at →
      ∀ (i j : Nat) (hi : i < (get_pending_orders db limit).length)
        (hj : j < (get_pending_orders db limit).length),
        ((get_pending_orders db limit).get ⟨i, hi⟩).id = A.id →
        ((get_pending_orders db limit).get ⟨j, hj⟩).id = B.id → i < j) := by
  refine ⟨?_, ?_, ?_⟩
  · exact le_trans (List.length_filterMap_le toClaimed (sqlRows db limit))
      (length_sqlRows db limit)
  · intro o ho
    rcases mem_claimed ho with ⟨en, h1, h2, h3⟩
    rcases toClaimed_some h3 with ⟨hid, huid, hac, hload⟩
    exact ⟨en, h1, h2, hid.symm, huid.symm, hac.symm, hload⟩
  · intro hu hA hB _ _ hlt i j hi hj hgi hgj
    have hpw := pairwise_claimed db limit hu
    rw [List.pairwise_iff_getElem] at hpw
    rcases Nat.lt_trichotomy i j with h | h | h
    · exact h
    · exfalso
      subst h
      rw [hgi] at hgj
      have hAB : A = B := entry_eq_of_id hu hA hB hgj
      rw [hAB] at hlt
      exact Nat.lt_irrefl _ hlt
    · exfalso
      have hped := hpw j i hj hi h
      have hgi2 : (get_pending_orders db limit)[i].id = A.id := hgi
      have hgj2 : (get_pending_orders db limit)[j].id = B.id := hgj
      rw [hgi2, hgj2] at hped
      rw [createdOf_eq hu hA, createdOf_eq hu hB] at hped
      omega


/-! ## Counterexample and witnesses -/

/-- C1 counterexample: the message-handle recording write
(`update_approval_request_status(request_id, 'pending', message_id)` at
main.py:3411) runs with no status guard; applied after the approver's
decision it resets an `approved` request back to `pending`, so the claimed
invariant fails as stated. -/
theorem record_handle_resets_decided_cex :
    statusOf cexWorld.requests "r1" = some .approved ∧
    statusOf (stepOp cexWorld (.recordHandle "r1" 7)).requests "r1" = some .pending ∧
    transitionOk (statusOf cexWorld.requests "r1")
      (statusOf (stepOp cexWorld (.recordHandle "r1" 7)).requests "r1") = false := by
  refine ⟨by decide, by decide, by decide⟩

theorem approval_status_transitions_guarded_witness :
    transitionOk (statusOf exWorld.requests "r1")
      (statusOf (stepOp exWorld (.recordHandle "r1" 7)).requests "r1") = true :=
  approval_status_transitions_guarded exWorld (.recordHandle "r1" 7)
    (fun rid mid h => by cases h; exact Or.inr rfl) "r1"

theorem approve_deletes_reject_retains_witness :
    (handle_continue_order
      (handle_manager_approval exWorld .approve "r1" 20 true).1 "r1" 10).2 = .resumed ∧
    lookupRequest (handle_continue_order
      (handle_manager_approval exWorld .approve "r1" 20 true).1 "r1" 10).1.requests
      "r1" = none ∧
    (handle_manager_reject_comment { exWorld with rejectPending := some "r1" }
      20 " no budget ").2 = .rejectDone := by
  have h := approve_deletes_reject_retains exWorld exReq " no budget " rfl rfl (by decide)
  exact ⟨h.2.2.2.1, h.2.2.2.2.1, h.2.2.2.2.2.1⟩

theorem snapshot_round_trip_witness :
    jsonNative exSnap = true ∧
    (get_approval_request_by_id
      (create_approval_request [] "r1" 10 20 "5" "41334" "K608" "Atlant" "P" exSnap).1
      "r1").map (·.user_data) = some exSnap :=
  ⟨rfl, snapshot_round_trip [] "r1" 10 20 "5" "41334" "K608" "Atlant" "P" exSnap rfl rfl⟩

theorem decision_guards_witness :
    handle_manager_approval exWorldApproved .approve "r1" 20 true =
      (exWorldApproved, .alreadyDecided .approved) :=
  (decision_guards exWorldApproved "r1" 20 .approve true "x").2.2.1
    (viewOf { exReq with status := .approved }) rfl rfl (by decide)

theorem retry_exhaustion_witness :
    (∀ o2 ∈ get_pending_orders [exQdone] 5, o2.id ≠ exQdone.id) ∧
    (processOne [exQdone] exClaim (some "boom") 3).2 = [escalationFor exClaim "boom"] := by
  have h := retry_exhaustion [exQdone] exQdone exClaim "boom" 3 5 []
  exact ⟨(h.1 (by unfold uniqueIds; decide) (List.mem_cons_self _ _) rfl (by decide)).1,
         h.2.1 (by decide)⟩

theorem claim_batch_spec_witness :
    (get_pending_orders [exB, exA] 5).length ≤ 5 ∧ (0 : Nat) < 1 := by
  have h := claim_batch_spec [exB, exA] 5 exA exB
  refine ⟨h.1, ?_⟩
  exact h.2.2 (by unfold uniqueIds; decide) (List.mem_cons_of_mem _ (List.mem_cons_self _ _))
    (List.mem_cons_self _ _) rfl rfl (by decide) 0 1 (by decide) (by decide)
    (by decide) (by decide)

theorem update_status_frame_witness :
    (applyStatus 3 .processing (some "x") exQdone).attempt_count =
      exQdone.attempt_count ∧
    (update_order_status [exQdone] exQdone.id .completed (some "x") 3).1.find?
      (fun x => x.id == exQdone.id) = some (applyStatus 3 .completed (some "x") exQdone) := by
  have h := update_status_frame [exQdone] (some "x") 3 exQdone
  exact ⟨(h.2.2.1 .processing (Or.inl rfl)).1,
         h.2.2.2.2.2 (by unfold uniqueIds; decide) (List.mem_cons_self _ _) .completed⟩

theorem notify_failure_rolls_back_witness :
    lookupRequest (gateSendAndRecord
      (create_approval_request [] "r1" 10 20 "5" "41334" "K608" "Atlant" "P" exSnap).1
      "r1" none).1 "r1" = none :=
  (notify_failure_rolls_back [] "r1" 10 20 "5" "41334" "K608" "Atlant" "P" exSnap rfl).2.2.2

theorem enqueue_never_silent_witness :
    (final_confirmation_enqueue [] 10 exSnap 1 0 false).2 ≠ [] ∧
    ({ admin := 122086799, user_id := 10, article := dictGet exSnap "article",
       shop := dictGet exSnap "selected_shop" } : Alert).user_id = 10 := by
  have h := enqueue_never_silent [] 10 exSnap 1 0
  exact ⟨h.2.2.2.1, (h.2.2.2.2 _ (List.mem_cons_self _ _)).1⟩

theorem malformed_payload_starved_witness :
    eligible exBad = true ∧ toClaimed exBad = none ∧
    exBad ∈ (runCycles [exBad] [fun _ => none] 3).1 := by
  have h := malformed_payload_starved [exBad] exBad "not json" 5 [fun _ => none] 3
    (List.mem_cons_self _ _) rfl rfl (by unfold uniqueIds; decide)
  exact ⟨h.1, h.2.1, h.2.2.2.2.2.1⟩

end BotLMKRD
